import Mathlib

/-!
Shallow embedding of the wolfinch-AlgoEdge trading bot, restricted to the parts
the verified claims are about:

* `src/risk/risk_manager.py` — the Risk Gate (`RiskManager`): admission checks
  (`can_place_order`), trade recording (`record_trade`), mark updates
  (`update_position_price`), the manual block reset (`reset_block`) and the
  state-persistence write (`_save_state`).
* `src/db/candle_db.py` — the SQLite candle upsert (`_db_save_candle_sqlite`,
  a `session.merge` on the `time` primary key).
* `src/db/redis_cache.py` — the recent-candle cache (`cache_candles`,
  `get_candles`: an rpush followed by an ltrim that keeps the tail).
* `src/indicators/indicators/ema.py` — `EMA.calculate` (tulip `ti.ema` over the
  last `period` closes, with the short-series guard).
* `src/exchanges/binanceClient/binanceClient.py` — the server-time offset
  computation in `Binance.__init__`, its application to the historic-rates
  range query, and the order-status handling in `Binance.buy`.
* `src/exchanges/openalgo/openalgo_client.py` — the order status assigned by
  `OpenAlgoClient.buy`.
* `src/exchanges/robinhood/robinhood.py` — the order-status collapse mapping
  in its order normalization.

Python numbers (prices, P&L) are modelled as `Rat`; lot counts as `Int`;
calendar dates as `Nat` (days); Python dicts as insertion-ordered association
lists.  Wall-clock data (timestamps, trade ids) carried along purely for
logging is omitted where no claim depends on it, and noted at each structure.
-/

namespace Wolfinch

/-- A single open position held by the Risk Manager
(`src/risk/risk_manager.py`, created in `RiskManager.record_trade`, updated in
`update_position_price`).  The `entry_time` ISO-timestamp string is omitted
(wall-clock data; no claim depends on it). -/
structure Position where
  lots : Int
  entry_price : Rat
  current_price : Rat
  unrealized_pnl : Rat
deriving DecidableEq, Repr

/-- One recorded trade (`RiskManager.record_trade`).  The `trade_id` and
`timestamp` strings are omitted (wall-clock data; no claim depends on them). -/
structure Trade where
  symbol : String
  side : String
  lots : Int
  price : Rat
  pnl : Rat
deriving DecidableEq, Repr

/-- The whole `RiskManager` state: configured limits (`__init__` reads them
from the config dict) plus the mutable tracking state.  `current_date` is a
calendar day modelled as a `Nat`; `open_positions` is the Python dict
modelled as an insertion-ordered association list with unique keys. -/
structure RiskState where
  max_daily_loss : Rat
  max_daily_loss_percent : Rat
  max_position_size : Int
  max_open_positions : Nat
  starting_capital : Rat
  daily_pnl : Rat
  current_date : Nat
  open_positions : List (String × Position)
  daily_trades : List Trade
  blocked : Bool
  block_reason : Option String
deriving DecidableEq, Repr

/-- Dict lookup on the association list (Python `symbol in self.open_positions`
/ `self.open_positions[symbol]`). -/
def posLookup (symbol : String) : List (String × Position) → Option Position
  | [] => none
  | (k, v) :: rest => if k = symbol then some v else posLookup symbol rest

/-- In-place value update for an existing key (Python mutates the dict entry,
leaving insertion order unchanged). -/
def posUpdate (symbol : String) (p : Position) :
    List (String × Position) → List (String × Position)
  | [] => []
  | (k, v) :: rest =>
      if k = symbol then (k, p) :: rest else (k, v) :: posUpdate symbol p rest

/-- Dict deletion (Python `del self.open_positions[symbol]`; keys are unique,
so removing every entry with the key coincides with removing the one entry). -/
def posErase (symbol : String) (l : List (String × Position)) :
    List (String × Position) :=
  l.filter (fun kv => kv.1 ≠ symbol)

/-- `RiskManager._reset_daily_counters` (without the `_save_state` call, which
is modelled separately as a file-operation trace): zero the daily counters,
clear the block latch, advance `current_date` to today.  Open positions are
retained. -/
def resetDailyCounters (today : Nat) (s : RiskState) : RiskState :=
  { s with daily_pnl := 0, daily_trades := [], blocked := false,
           block_reason := none, current_date := today }

/-- The reason string latched when the absolute daily-loss limit is hit
(`can_place_order`, line 149).  The Python f-string renders the amount with a
currency glyph and two decimals (`₹{...:.2f}`); the numeric rendering is
abstracted to `toString` of the exact rational. -/
def dailyLossReason (daily_pnl : Rat) : String :=
  "Daily loss limit reached: " ++ toString (abs daily_pnl)

/-- The reason string latched when the percentage daily-loss limit is hit
(`can_place_order`, line 159); same rendering abstraction. -/
def dailyLossPctReason (loss_percent : Rat) : String :=
  "Daily loss % limit reached: " ++ toString loss_percent ++ "%"

/-- The check chain of `RiskManager.can_place_order` after the date-rollover
step (lines 142–180).  Note the division by `starting_capital` in the percent
check: Python would raise on 0, Lean's `Rat` division returns 0; the shipped
default is 100000, and every theorem below either fixes the field or is
unaffected by it. -/
def can_place_order_checks (symbol side : String) (lots : Int)
    (price : Rat) (s : RiskState) : Bool × String × RiskState :=
  -- Check if already blocked
  if s.blocked then
    (false, "Trading blocked: " ++ (match s.block_reason with
                                    | some r => r
                                    | none => "None"), s)
  -- Check daily loss limit
  else if 0 < s.max_daily_loss ∧ s.max_daily_loss ≤ abs s.daily_pnl then
    let reason := dailyLossReason s.daily_pnl
    (false, reason, { s with blocked := true, block_reason := some reason })
  -- Check daily loss percentage limit
  else if 0 < s.max_daily_loss_percent ∧
          s.max_daily_loss_percent ≤ abs s.daily_pnl / s.starting_capital * 100 then
    let reason := dailyLossPctReason (abs s.daily_pnl / s.starting_capital * 100)
    (false, reason, { s with blocked := true, block_reason := some reason })
  -- Check max position size (no latch)
  else if 0 < s.max_position_size ∧ s.max_position_size < lots then
    (false, "Position size " ++ toString lots ++ " exceeds max " ++
            toString s.max_position_size ++ " lots", s)
  -- Check max open positions (for new positions only, on the buy side)
  else if side = "buy" ∧ 0 < s.max_open_positions ∧
          posLookup symbol s.open_positions = none ∧
          s.max_open_positions ≤ s.open_positions.length then
    (false, "Max open positions " ++ toString s.max_open_positions ++ " reached",
     s)
  else
    (true, "OK", s)

/-- `RiskManager.can_place_order(symbol, side, lots, price)`.  `today` stands
for `date.today()`.  Returns the `(allowed, reason)` pair together with the
state after the call (the Python method mutates `self`: the date rollover and
the two loss-limit latches are its only state changes). -/
def can_place_order (today : Nat) (symbol side : String) (lots : Int)
    (price : Rat) (s0 : RiskState) : Bool × String × RiskState :=
  -- Check if new day - reset counters
  let s := if today ≠ s0.current_date then resetDailyCounters today s0 else s0
  can_place_order_checks symbol side lots price s

/-- `RiskManager.record_trade(symbol, side, lots, price, pnl)`: append the
trade, add any realized P&L, and mutate `open_positions` — a buy opens a new
entry or averages into the existing one; a sell reduces the entry's lots and
deletes it when they fall to 0 or below.  (`price` is unused by the position
update only when the symbol already exists on the sell side; kept as in
source.) -/
def record_trade (symbol side : String) (lots : Int) (price : Rat) (pnl : Rat)
    (s : RiskState) : RiskState :=
  let trade : Trade :=
    { symbol := symbol, side := side, lots := lots, price := price, pnl := pnl }
  let s1 := { s with daily_trades := s.daily_trades ++ [trade] }
  let s2 := if pnl ≠ 0 then { s1 with daily_pnl := s1.daily_pnl + pnl } else s1
  if side = "buy" then
    match posLookup symbol s2.open_positions with
    | none =>
        { s2 with open_positions := s2.open_positions ++
            [(symbol, { lots := lots, entry_price := price,
                        current_price := price, unrealized_pnl := 0 })] }
    | some pos =>
        let total_lots := pos.lots + lots
        let avg_price := ((pos.lots * pos.entry_price) + (lots * price)) / total_lots
        let pos' := { pos with lots := total_lots, entry_price := avg_price }
        { s2 with open_positions := posUpdate symbol pos' s2.open_positions }
  else if side = "sell" then
    match posLookup symbol s2.open_positions with
    | none => s2
    | some pos =>
        let newLots := pos.lots - lots
        if newLots ≤ 0 then
          { s2 with open_positions := posErase symbol s2.open_positions }
        else
          let pos' := { pos with lots := newLots }
          { s2 with open_positions := posUpdate symbol pos' s2.open_positions }
  else s2

/-- `RiskManager.update_position_price(symbol, current_price)`: refresh the
mark and recompute the unrealized P&L of the matching open position; a miss is
a no-op. -/
def update_position_price (symbol : String) (current_price : Rat)
    (s : RiskState) : RiskState :=
  match posLookup symbol s.open_positions with
  | none => s
  | some pos =>
      let upnl := (current_price - pos.entry_price) * pos.lots
      let pos' := { pos with current_price := current_price, unrealized_pnl := upnl }
      { s with open_positions := posUpdate symbol pos' s.open_positions }

/-- `RiskManager.reset_block()`: the manual unblock. -/
def reset_block (s : RiskState) : RiskState :=
  { s with blocked := false, block_reason := none }

/-- The `total` component of `RiskManager.get_daily_pnl()`: realized daily
P&L plus the sum of the open positions' unrealized P&L. -/
def dailyPnlTotal (s : RiskState) : Rat :=
  s.daily_pnl + (s.open_positions.map (fun kv => kv.2.unrealized_pnl)).sum

/-! ### Persistence of the risk state (`RiskManager._save_state`)

The file-system effects are embedded as an explicit operation trace. -/

/-- One file-system operation, as visible in `_save_state` and in the
write-temp / fsync / rename pattern the spec describes. -/
inductive FsOp where
  | mkdirParents (path : String)
  | write (path : String) (content : String)
  | fsync (path : String)
  | rename (src : String) (dst : String)
deriving DecidableEq, Repr

/-- The fixed risk-state path: `Path('data/risk_state.json')`. -/
def riskStatePath : String := "data/risk_state.json"

/-- JSON rendering of one open position as `_save_state` dumps it (numeric
rendering abstracted to `toString` of the exact rational; `entry_time`
omitted as in `Position`). -/
def serializePosition (kv : String × Position) : String :=
  "\"" ++ kv.1 ++ "\": \x7b\"lots\": " ++ toString kv.2.lots ++
  ", \"entry_price\": " ++ toString kv.2.entry_price ++
  ", \"current_price\": " ++ toString kv.2.current_price ++
  ", \"unrealized_pnl\": " ++ toString kv.2.unrealized_pnl ++ "\x7d"

/-- JSON rendering of one recorded trade. -/
def serializeTrade (t : Trade) : String :=
  "\x7b\"symbol\": \"" ++ t.symbol ++ "\", \"side\": \"" ++ t.side ++
  "\", \"lots\": " ++ toString t.lots ++ ", \"price\": " ++ toString t.price ++
  ", \"pnl\": " ++ toString t.pnl ++ "\x7d"

/-- The JSON object `_save_state` dumps: date, daily P&L, open positions,
daily trades, the block latch and its reason.  (The wall-clock `timestamp`
field is omitted.) -/
def serializeState (s : RiskState) : String :=
  "\x7b\"date\": \"" ++ toString s.current_date ++ "\", \"daily_pnl\": " ++
  toString s.daily_pnl ++ ", \"open_positions\": \x7b" ++
  String.intercalate ", " (s.open_positions.map serializePosition) ++
  "\x7d, \"daily_trades\": [" ++
  String.intercalate ", " (s.daily_trades.map serializeTrade) ++
  "], \"blocked\": " ++ (if s.blocked then "true" else "false") ++
  ", \"block_reason\": " ++ (match s.block_reason with
                             | some r => "\"" ++ r ++ "\""
                             | none => "null") ++ "\x7d"

/-- The file-system trace of `RiskManager._save_state`: ensure the parent
directory exists (`mkdir(parents=True, exist_ok=True)`), then open the fixed
path for writing and dump the JSON into it directly.  There is no temporary
file, no fsync and no rename in the source. -/
def saveStateOps (s : RiskState) : List FsOp :=
  [FsOp.mkdirParents "data", FsOp.write riskStatePath (serializeState s)]

/-- Whether a trace ends with the atomic-replace pattern onto `path` that the
spec mandates: a write to a temporary file, an fsync of that file, and a
rename of it over `path`. -/
def endsWithAtomicReplace (path : String) (ops : List FsOp) : Bool :=
  match ops.reverse with
  | FsOp.rename src dst :: FsOp.fsync f :: FsOp.write w _ :: _ =>
      src == w && f == w && dst == path && !(w == path)
  | _ => false

/-! ### Candle store (`src/db/candle_db.py`, `src/db/redis_cache.py`) -/

/-- An OHLC candle (`time` is epoch seconds and the SQLite primary key;
`open` is spelled `open_` because it is a Lean keyword). -/
structure OHLC where
  time : Nat
  open_ : Rat
  high : Rat
  low : Rat
  close : Rat
  volume : Rat
deriving DecidableEq, Repr

/-- `CandlesDb._db_save_candle_sqlite`: `session.merge` on a table whose
primary key is `time` — an upsert: replace the row with the same `time` if
one exists, else insert. -/
def db_save_candle_sqlite (db : List OHLC) (c : OHLC) : List OHLC :=
  if db.any (fun x => x.time = c.time) then
    db.map (fun x => if x.time = c.time then c else x)
  else
    db ++ [c]

/-- `RedisCache.cache_candles`: `rpush` the new candles onto the right end of
the per-product list, then `ltrim(key, -max_candles, -1)` to keep only the
most recent `max_candles`. -/
def cache_candles (cache : List OHLC) (candles : List OHLC)
    (max_candles : Nat) : List OHLC :=
  let l := cache ++ candles
  l.drop (l.length - max_candles)

/-- `RedisCache.get_candles`: `lrange(key, -count, -1)` — the last `count`
cached candles. -/
def get_candles (cache : List OHLC) (count : Nat) : List OHLC :=
  cache.drop (cache.length - count)

/-! ### EMA indicator (`src/indicators/indicators/ema.py`) -/

/-- Tulip's `ti.ema` (https://tulipindicators.org/ema) over a value array,
returning the last element of the output array, which is what
`EMA.calculate` reads: seed with the first input, then
`out[i] = (in[i] - out[i-1]) * (2/(period+1)) + out[i-1]`. -/
def tiEmaLast (period : Nat) (vals : List Rat) : Rat :=
  match vals with
  | [] => 0
  | v :: rest =>
      rest.foldl (fun acc x => (x - acc) * (2 / ((period : Rat) + 1)) + acc) v

/-- `EMA.calculate(candles)` with the candle list projected to its close
prices: if fewer candles than `period` are available it returns the float 0
(`return float(0)`), otherwise the tulip EMA of the last `period` closes. -/
def EMA.calculate (period : Nat) (closes : List Rat) : Rat :=
  if closes.length < period then 0
  else tiEmaLast period (closes.drop (closes.length - period))

/-- Reference recurrence for the spec-side reading of the EMA: the EMA of a
series processed front to back, defined by structural recursion on the tail.
Used to give `EMA.calculate`'s fold an independent characterization. -/
def emaFrom (period : Nat) (acc : Rat) : List Rat → Rat
  | [] => acc
  | x :: rest => emaFrom period ((x - acc) * (2 / ((period : Rat) + 1)) + acc) rest

/-! ### Exchange adapters -/

/-- The Binance server-time offset (`Binance.__init__`, lines 108–114):
`(serverTime - localTime) // 1000` with both clocks in milliseconds — Python
`//` is floor division, hence `Int.fdiv` — and offsets smaller than 5 seconds
in absolute value are zeroed. -/
def binanceTimeOffset (serverTime localTime : Int) : Int :=
  let off := Int.fdiv (serverTime - localTime) 1000
  if off.natAbs < 5 then 0 else off

/-- The first chunk of `Binance.get_historic_rates` (lines 313–319): the
chunk end is `min(start + max_candles*interval, end)`, and then both bounds
are shifted by the server-time offset before being sent out. -/
def binanceHistoricFirstChunk (timeOffset start_ end_ td : Int) : Int × Int :=
  let tmp_end := min (start_ + td) end_
  (start_ + timeOffset, tmp_end + timeOffset)

/-- ASCII lower-casing of one character (embedding of Python `str.lower`,
which on the ASCII statuses at hand only shifts A–Z). -/
def lowerChar (c : Char) : Char :=
  if 'A' ≤ c ∧ c ≤ 'Z' then Char.ofNat (c.toNat + 32) else c

/-- ASCII lower-casing of a string (Python `str.lower` on the statuses at
hand). -/
def lowerString (s : String) : String := String.mk (s.data.map lowerChar)

/-- The order status constructed by `Binance.buy` (lines 437–474):
`response.get('status', 'NEW')` lower-cased, with no further mapping. -/
def binanceBuyOrderStatus (respStatus : Option String) : String :=
  lowerString (respStatus.getD "NEW")

/-- The order status constructed by `OpenAlgoClient.buy` (lines 258–268): the
fixed literal `'pending'` for every successfully placed order. -/
def openalgoBuyOrderStatus : String := "pending"

/-- Outcome of the Robinhood order normalization for a native status. -/
inductive NormStatus where
  | mapped (status : String)
  | dropped
  | hardError
deriving DecidableEq, Repr

/-- The native statuses the Robinhood normalization recognises
(`src/exchanges/robinhood/robinhood.py`, line 501). -/
def robinhoodKnownStatuses : List String :=
  ["open", "confirmed", "unconfirmed", "queued", "cancelled",
   "filled", "rejected", "expired"]

/-- The status collapse in the Robinhood order normalization
(`src/exchanges/robinhood/robinhood.py`, lines 501–519):
{open, confirmed, unconfirmed, queued} → `open`; `filled` → `filled`;
{cancelled, expired} → `canceled`; `rejected` → the order is dropped
(`return None`); anything else raises. -/
def robinhoodNormalizeStatus (status : String) : NormStatus :=
  if status ∈ robinhoodKnownStatuses then
    if status ∈ ["open", "unconfirmed", "queued", "confirmed"] then
      NormStatus.mapped "open"
    else if status = "filled" then NormStatus.mapped "filled"
    else if status ∈ ["cancelled", "expired"] then NormStatus.mapped "canceled"
    else NormStatus.dropped
  else
    NormStatus.hardError

/-- The canonical status set named by the spec's collapse mapping. -/
def canonicalStatuses : List String := ["open", "filled", "canceled", "rejected"]

/-! ### Derived notions used to state the claims -/

/-- Uniqueness of the `time` primary key in a stored candle table. -/
def uniqueTimes (db : List OHLC) : Prop :=
  db.Pairwise (fun a b => a.time ≠ b.time)

instance (db : List OHLC) : Decidable (uniqueTimes db) := by
  unfold uniqueTimes; infer_instance

/-- Replay a list of trades through `record_trade` (one fold step per
`record_trade` call, in order). -/
def runTrades (s : RiskState) (ts : List Trade) : RiskState :=
  ts.foldl (fun acc t => record_trade t.symbol t.side t.lots t.price t.pnl acc) s

/-- Every open position carries strictly positive lots. -/
def positionsPositive (s : RiskState) : Prop :=
  ∀ kv ∈ s.open_positions, 0 < kv.2.lots

instance (s : RiskState) : Decidable (positionsPositive s) := by
  unfold positionsPositive; infer_instance

/-! ### Concrete states used by counterexamples and witnesses -/

/-- A fresh risk state configured as in the spec's risk-latch scenario:
`max_daily_loss = 100`, `starting_capital = 10000`, all other limits off. -/
def egBase : RiskState :=
  { max_daily_loss := 100, max_daily_loss_percent := 0, max_position_size := 0,
    max_open_positions := 0, starting_capital := 10000, daily_pnl := 0,
    current_date := 0, open_positions := [], daily_trades := [],
    blocked := false, block_reason := none }

/-- State whose daily P&L *total* is −110 purely from unrealized P&L: buy one
lot of X at 200 and mark it down to 90.  Realized `daily_pnl` stays 0. -/
def egUnrealized : RiskState :=
  update_position_price "X" 90 (record_trade "X" "buy" 1 200 0 egBase)

/-- State whose *realized* daily P&L is −110: two losing exit trades
(−60 then −50), as in the spec's risk-latch scenario. -/
def egRealized : RiskState :=
  record_trade "X" "sell" 1 200 (-50) (record_trade "X" "sell" 1 200 (-60) egBase)

/-- A blocked state on date 0 (what the first admission after `egRealized`
latches). -/
def egBlocked : RiskState :=
  (can_place_order 0 "Y" "buy" 1 50 egRealized).2.2

/-- One open position `A` with a cap of one concurrent position. -/
def egAtCap : RiskState :=
  { egBase with max_open_positions := 1,
                open_positions := [("A", ⟨1, 100, 100, 0⟩)] }

/-- The upsert candle of the spec's end-to-end scenario 1 (second write). -/
def egCandle : OHLC := ⟨1700000000, 100, 102, 99, 101, 15⟩

/-- The first write of that scenario: same `time`, different fields. -/
def egCandleOld : OHLC := ⟨1700000000, 100, 101, 99, 100, 10⟩

/-- A trade sequence exercising both position-mutation paths: open a 2-lot
long, then sell 3 lots (closing the position through the delete-on-≤0 path). -/
def egTrades : List Trade :=
  [{ symbol := "X", side := "buy", lots := 2, price := 100, pnl := 0 },
   { symbol := "X", side := "sell", lots := 3, price := 110, pnl := 20 }]

/-! ## Helper lemmas on the association-list dictionary -/

lemma posLookup_mem {symbol : String} {p : Position} :
    ∀ {l : List (String × Position)}, posLookup symbol l = some p → (symbol, p) ∈ l := by
  intro l
  induction l with
  | nil => intro h; simp [posLookup] at h
  | cons kv rest ih =>
      obtain ⟨k, v⟩ := kv
      intro h
      by_cases hk : k = symbol
      · subst hk
        simp [posLookup] at h
        simp [h]
      · simp [posLookup, hk] at h
        exact List.mem_cons_of_mem _ (ih h)

lemma posUpdate_mem {symbol : String} {p : Position} {kv : String × Position} :
    ∀ {l : List (String × Position)}, kv ∈ posUpdate symbol p l → kv.2 = p ∨ kv ∈ l := by
  intro l
  induction l with
  | nil => intro h; simp [posUpdate] at h
  | cons hd rest ih =>
      obtain ⟨k, v⟩ := hd
      intro h
      by_cases hk : k = symbol
      · subst hk
        simp [posUpdate] at h
        rcases h with h | h
        · exact Or.inl (by simp [h])
        · exact Or.inr (List.mem_cons_of_mem _ h)
      · simp [posUpdate, hk] at h
        rcases h with h | h
        · exact Or.inr (by simp [h])
        · rcases ih h with h' | h'
          · exact Or.inl h'
          · exact Or.inr (List.mem_cons_of_mem _ h')

lemma posUpdate_length {symbol : String} {p : Position} :
    ∀ (l : List (String × Position)), (posUpdate symbol p l).length = l.length := by
  intro l
  induction l with
  | nil => rfl
  | cons hd rest ih =>
      obtain ⟨k, v⟩ := hd
      by_cases hk : k = symbol
      · simp [posUpdate, hk]
      · simp [posUpdate, hk, ih]

lemma posErase_mem {symbol : String} {kv : String × Position}
    {l : List (String × Position)} (h : kv ∈ posErase symbol l) : kv ∈ l :=
  List.mem_of_mem_filter h

lemma posErase_length_le (symbol : String) (l : List (String × Position)) :
    (posErase symbol l).length ≤ l.length :=
  List.length_filter_le _ l

/-! ## Helper lemmas on the admission check chain -/

/-- When the calendar date has not changed, `can_place_order` is exactly its
post-rollover check chain. -/
lemma can_place_order_same_date (today : Nat) (symbol side : String)
    (lots : Int) (price : Rat) (s : RiskState) (h : today = s.current_date) :
    can_place_order today symbol side lots price s =
      can_place_order_checks symbol side lots price s := by
  simp [can_place_order, h]

/-- A blocked state makes the check chain deny immediately with the stored
reason, leaving the state untouched. -/
lemma can_place_order_checks_blocked (symbol side : String) (lots : Int)
    (price : Rat) (s : RiskState) (hb : s.blocked = true) :
    can_place_order_checks symbol side lots price s =
      (false,
       "Trading blocked: " ++ (match s.block_reason with
                               | some r => r
                               | none => "None"), s) := by
  unfold can_place_order_checks
  rw [if_pos hb]

/-- An unblocked state over the absolute daily-loss limit makes the check
chain latch the block and deny with the daily-loss reason. -/
lemma can_place_order_checks_daily_loss (symbol side : String) (lots : Int)
    (price : Rat) (s : RiskState) (hb : s.blocked = false)
    (h1 : 0 < s.max_daily_loss) (h2 : s.max_daily_loss ≤ abs s.daily_pnl) :
    can_place_order_checks symbol side lots price s =
      (false, dailyLossReason s.daily_pnl,
       { s with blocked := true,
                block_reason := some (dailyLossReason s.daily_pnl) }) := by
  unfold can_place_order_checks
  rw [if_neg (by simp [hb]), if_pos ⟨h1, h2⟩]

/-- The check chain returns either the incoming state unchanged or the
incoming state with only the block latch set. -/
lemma can_place_order_checks_state (symbol side : String) (lots : Int)
    (price : Rat) (s : RiskState) :
    (can_place_order_checks symbol side lots price s).2.2 = s ∨
    ∃ r, (can_place_order_checks symbol side lots price s).2.2 =
         { s with blocked := true, block_reason := some r } := by
  unfold can_place_order_checks
  split_ifs <;>
    first
      | exact Or.inl rfl
      | exact Or.inr ⟨_, rfl⟩

/-- If the check chain approves a buy of a symbol with no open position while
the open-position cap is active, the cap is not yet reached. -/
lemma can_place_order_checks_cap (symbol side : String) (lots : Int)
    (price : Rat) (s : RiskState)
    (h : (can_place_order_checks symbol side lots price s).1 = true)
    (hside : side = "buy") (hmax : 0 < s.max_open_positions)
    (hnew : posLookup symbol s.open_positions = none) :
    s.open_positions.length < s.max_open_positions := by
  unfold can_place_order_checks at h
  split_ifs at h with h1 h2 h3 h4 h5
  exact Nat.lt_of_not_le (fun hle => h5 ⟨hside, hmax, hnew, hle⟩)

/-- What `record_trade` does to `open_positions`, expressed over the incoming
state's positions (the daily-trades / daily-P&L updates do not touch them). -/
lemma record_trade_open_positions (symbol side : String) (lots : Int)
    (price pnl : Rat) (s : RiskState) :
    (record_trade symbol side lots price pnl s).open_positions =
      if side = "buy" then
        match posLookup symbol s.open_positions with
        | none => s.open_positions ++
            [(symbol, { lots := lots, entry_price := price,
                        current_price := price, unrealized_pnl := 0 })]
        | some pos =>
            posUpdate symbol
              { pos with lots := pos.lots + lots,
                         entry_price := ((pos.lots * pos.entry_price) +
                           (lots * price)) / (pos.lots + lots) }
              s.open_positions
      else if side = "sell" then
        match posLookup symbol s.open_positions with
        | none => s.open_positions
        | some pos =>
            if pos.lots - lots ≤ 0 then posErase symbol s.open_positions
            else posUpdate symbol { pos with lots := pos.lots - lots }
              s.open_positions
      else s.open_positions := by
  simp only [record_trade]
  split_ifs <;>
    cases hlk : posLookup symbol s.open_positions <;>
      simp [hlk] <;> split_ifs <;> rfl

/-- `record_trade` never touches the block latch, its reason, the calendar
date or any configured limit. -/
lemma record_trade_frame (symbol side : String) (lots : Int)
    (price pnl : Rat) (s : RiskState) :
    (record_trade symbol side lots price pnl s).blocked = s.blocked ∧
    (record_trade symbol side lots price pnl s).block_reason = s.block_reason ∧
    (record_trade symbol side lots price pnl s).current_date = s.current_date ∧
    (record_trade symbol side lots price pnl s).max_open_positions =
      s.max_open_positions := by
  simp only [record_trade]
  split_ifs <;>
    cases hlk : posLookup symbol s.open_positions <;>
      simp [hlk] <;> split_ifs <;> simp

/-- `update_position_price` never touches the block latch. -/
lemma update_position_price_blocked (symbol : String) (current_price : Rat)
    (s : RiskState) :
    (update_position_price symbol current_price s).blocked = s.blocked := by
  unfold update_position_price
  cases posLookup symbol s.open_positions <;> rfl

/-! ## Candle-store helper lemmas -/

/-- Replacing the same-time row does not change any row's `time`. -/
lemma upsert_time (c x : OHLC) :
    (if x.time = c.time then c else x).time = x.time := by
  split_ifs with h
  · exact h.symm
  · rfl

/-- In a unique-times table containing a same-time row, replacing it and
filtering for `c.time` yields exactly the new row. -/
lemma db_replace_filter (c : OHLC) :
    ∀ (db : List OHLC), uniqueTimes db →
      db.any (fun x => x.time = c.time) = true →
      ((db.map (fun x => if x.time = c.time then c else x)).filter
          (fun x => x.time = c.time)) = [c] := by
  intro db
  induction db with
  | nil => intro _ h; simp at h
  | cons hd tl ih =>
      intro hu hany
      have hu' : uniqueTimes tl := hu.of_cons
      have hhd : ∀ b ∈ tl, hd.time ≠ b.time := (List.pairwise_cons.mp hu).1
      by_cases h : hd.time = c.time
      · have htl : ∀ x ∈ tl, ¬ x.time = c.time := fun x hx heq =>
          hhd x hx (h.trans heq.symm)
        have hnil : ((tl.map (fun x => if x.time = c.time then c else x)).filter
            (fun x => x.time = c.time)) = [] := by
          rw [List.filter_eq_nil_iff]
          intro y hy
          rcases List.mem_map.mp hy with ⟨x, hx, hfx⟩
          simp only [← hfx, upsert_time]
          simpa using htl x hx
        simp [h, hnil]
      · have htail : tl.any (fun x => x.time = c.time) = true := by
          rcases List.any_eq_true.mp hany with ⟨x, hx, hpx⟩
          rcases List.mem_cons.mp hx with rfl | hx'
          · exact absurd (of_decide_eq_true hpx) h
          · exact List.any_eq_true.mpr ⟨x, hx', hpx⟩
        simp only [List.map_cons, if_neg h, List.filter_cons]
        rw [if_neg (by simpa using h)]
        exact ih hu' htail

/-- Saving a candle preserves uniqueness of the `time` key. -/
lemma db_save_uniqueTimes (c : OHLC) (db : List OHLC) (hdb : uniqueTimes db) :
    uniqueTimes (db_save_candle_sqlite db c) := by
  unfold db_save_candle_sqlite
  split_ifs with hany
  · unfold uniqueTimes at *
    rw [List.pairwise_map]
    exact hdb.imp (fun {a b} h => by rw [upsert_time, upsert_time]; exact h)
  · unfold uniqueTimes at *
    rw [List.pairwise_append]
    refine ⟨hdb, by simp, ?_⟩
    intro a ha b hb
    rcases List.mem_singleton.mp hb with rfl
    intro heq
    have : db.any (fun x => x.time = b.time) = true :=
      List.any_eq_true.mpr ⟨a, ha, decide_eq_true heq⟩
    exact hany this

/-- After any save into a unique-times table, the rows with the new candle's
`time` are exactly the new candle. -/
lemma db_save_filter (c : OHLC) (db : List OHLC) (hdb : uniqueTimes db) :
    (db_save_candle_sqlite db c).filter (fun x => x.time = c.time) = [c] := by
  unfold db_save_candle_sqlite
  split_ifs with hany
  · exact db_replace_filter c db hdb hany
  · have hnil : db.filter (fun x => x.time = c.time) = [] := by
      rw [List.filter_eq_nil_iff]
      intro x hx hpx
      exact hany (List.any_eq_true.mpr ⟨x, hx, hpx⟩)
    rw [List.filter_append, hnil]
    simp

/-! ## EMA helper -/

/-- The tulip fold and the front-to-back recurrence agree. -/
lemma emaFrom_eq_foldl (period : Nat) :
    ∀ (l : List Rat) (acc : Rat),
      l.foldl (fun a x => (x - a) * (2 / ((period : Rat) + 1)) + a) acc =
        emaFrom period acc l := by
  intro l
  induction l with
  | nil => intro acc; rfl
  | cons x rest ih => intro acc; simp [emaFrom, List.foldl, ih]

/-! ## Claim C3 — risk-state persistence -/

/-- Claim C3 counterexample: `_save_state` does **not** perform an atomic
replace.  Its file-operation trace (a `mkdir` of the parent followed by a
direct `open(..., 'w')`/`json.dump` write onto the fixed path) does not end
with the write-temp / fsync / rename pattern, already on a fresh state. -/
theorem C3_counterexample :
    endsWithAtomicReplace riskStatePath (saveStateOps egBase) = false := by
  rfl

/-- Claim C3 (amended): after every mutation the entire risk state is
serialized to the single fixed path `data/risk_state.json`, but by a direct
write — the trace is exactly a `mkdir` of the parent directory followed by one
write of the serialized state onto the fixed path, with no temporary file, no
fsync and no rename. -/
theorem C3_save_state_direct_write :
    ∀ s : RiskState,
      saveStateOps s = [FsOp.mkdirParents "data",
                        FsOp.write riskStatePath (serializeState s)] ∧
      (saveStateOps s).all (fun op => match op with
        | FsOp.fsync _ => false
        | FsOp.rename _ _ => false
        | _ => true) = true ∧
      endsWithAtomicReplace riskStatePath (saveStateOps s) = false :=
  fun _ => ⟨rfl, rfl, rfl⟩

/-! ## Claim C6 — order-status normalization -/

/-- Claim C6 counterexample: the Binance adapter's `buy` merely lower-cases
the broker-native status, so a broker status `NEW` yields the order status
`new`, which is outside the canonical set {open, filled, canceled, rejected}
— and no error is raised; likewise the OpenAlgo adapter's `buy` hardcodes the
status `pending`, also outside the canonical set. -/
theorem C6_counterexample :
    binanceBuyOrderStatus (some "NEW") = "new" ∧
    canonicalStatuses.contains (binanceBuyOrderStatus (some "NEW")) = false ∧
    openalgoBuyOrderStatus = "pending" ∧
    canonicalStatuses.contains openalgoBuyOrderStatus = false := by
  refine ⟨by decide, by decide, rfl, by decide⟩

/-- Claim C6 (amended): only the Robinhood adapter collapses broker statuses,
with {open, confirmed, unconfirmed, queued} → `open`, `filled` → `filled`,
{cancelled, expired} → `canceled`, `rejected` → the order is dropped, and any
status outside its recognised set a hard error; the Binance adapter's `buy`
passes the broker status through lower-cased (defaulting a missing status to
`NEW`), and the OpenAlgo adapter's `buy` assigns the fixed status `pending` —
neither maps into the canonical set nor rejects unknown statuses. -/
theorem C6_status_normalization :
    (∀ st : String, binanceBuyOrderStatus (some st) = lowerString st) ∧
    binanceBuyOrderStatus none = "new" ∧
    openalgoBuyOrderStatus = "pending" ∧
    robinhoodNormalizeStatus "open" = NormStatus.mapped "open" ∧
    robinhoodNormalizeStatus "confirmed" = NormStatus.mapped "open" ∧
    robinhoodNormalizeStatus "unconfirmed" = NormStatus.mapped "open" ∧
    robinhoodNormalizeStatus "queued" = NormStatus.mapped "open" ∧
    robinhoodNormalizeStatus "filled" = NormStatus.mapped "filled" ∧
    robinhoodNormalizeStatus "cancelled" = NormStatus.mapped "canceled" ∧
    robinhoodNormalizeStatus "expired" = NormStatus.mapped "canceled" ∧
    robinhoodNormalizeStatus "rejected" = NormStatus.dropped ∧
    (∀ st : String, st ∉ robinhoodKnownStatuses →
        robinhoodNormalizeStatus st = NormStatus.hardError) := by
  refine ⟨fun st => rfl, by decide, rfl, by decide, by decide, by decide, by decide,
          by decide, by decide, by decide, by decide, ?_⟩
  intro st h
  unfold robinhoodNormalizeStatus
  rw [if_neg h]

/-- Witness for `C6_status_normalization`: the status `new` — canonical
`open` per the spec's mapping — is outside Robinhood's recognised set and is
a hard error there. -/
theorem C6_status_normalization_witness :
    "new" ∉ robinhoodKnownStatuses ∧
    robinhoodNormalizeStatus "new" = NormStatus.hardError :=
  ⟨by decide,
   C6_status_normalization.2.2.2.2.2.2.2.2.2.2.2 "new" (by decide)⟩

/-! ## Claim C7 — indicator short-series behavior -/

/-- Claim C7 counterexample: `EMA.calculate` on a series shorter than its
period returns the numeric default 0 (`return float(0)`), not a null /
no-value result. -/
theorem C7_counterexample :
    ([(10 : Rat)].length < 3) ∧ EMA.calculate 3 [10] = 0 := by
  exact ⟨by decide, rfl⟩

/-- Claim C7 (amended): for a series shorter than the period,
`EMA.calculate` returns the numeric default 0 — not null; for a series of at
least `period` candles it returns the tulip EMA of the last `period` closes
(the value for the latest candle; `calculate` takes no history offset),
characterized by the front-to-back EMA recurrence `emaFrom` seeded with the
first of those closes. -/
theorem C7_ema_guard_and_value :
    ∀ (period : Nat) (closes : List Rat),
      (closes.length < period → EMA.calculate period closes = 0) ∧
      (period ≤ closes.length →
        ∀ (v : Rat) (rest : List Rat),
          closes.drop (closes.length - period) = v :: rest →
          EMA.calculate period closes = emaFrom period v rest) := by
  intro period closes
  constructor
  · intro h
    simp [EMA.calculate, h]
  · intro h v rest hd
    have hnot : ¬ closes.length < period := not_lt.mpr h
    simp only [EMA.calculate, if_neg hnot, tiEmaLast, hd]
    exact emaFrom_eq_foldl period rest v

/-- Witness for `C7_ema_guard_and_value`: with period 2 over the closes
[10, 20, 30], the last two closes are [20, 30] and the calculated EMA is the
recurrence value `emaFrom 2 20 [30] = 80/3`. -/
theorem C7_ema_guard_and_value_witness :
    (2 ≤ ([(10 : Rat), 20, 30] : List Rat).length ∧
      ([(10 : Rat), 20, 30] : List Rat).drop (([(10 : Rat), 20, 30] : List Rat).length - 2) =
        (20 : Rat) :: [(30 : Rat)]) ∧
    EMA.calculate 2 [10, 20, 30] = emaFrom 2 20 [30] ∧
    emaFrom 2 20 [30] = 80 / 3 :=
  ⟨⟨by decide, by decide⟩,
   (C7_ema_guard_and_value 2 [10, 20, 30]).2 (by decide) 20 [30] (by decide),
   by norm_num [emaFrom]⟩

/-! ## Claim C8 — server-time offset -/

/-- Claim C8: the Binance adapter computes the server-time offset as the
floor of `(serverTime − localTime) / 1000` milliseconds-to-seconds (so, up to
sub-second truncation, `server_time − local_time` in seconds), zeroes it when
its magnitude is below 5 seconds, and shifts both the start and the end bound
of the first historic-rates chunk by exactly that offset. -/
theorem C8_server_time_offset :
    ∀ (serverTime localTime start_ end_ td : Int),
      ((Int.fdiv (serverTime - localTime) 1000).natAbs < 5 →
          binanceTimeOffset serverTime localTime = 0) ∧
      (5 ≤ (Int.fdiv (serverTime - localTime) 1000).natAbs →
          binanceTimeOffset serverTime localTime =
            Int.fdiv (serverTime - localTime) 1000) ∧
      (binanceTimeOffset serverTime localTime = 0 ∨
        (1000 * binanceTimeOffset serverTime localTime -
          (serverTime - localTime)).natAbs < 1000) ∧
      binanceHistoricFirstChunk (binanceTimeOffset serverTime localTime)
          start_ end_ td =
        (start_ + binanceTimeOffset serverTime localTime,
         min (start_ + td) end_ + binanceTimeOffset serverTime localTime) := by
  intro serverTime localTime start_ end_ td
  refine ⟨?_, ?_, ?_, rfl⟩
  · intro h
    simp [binanceTimeOffset, h]
  · intro h
    have hnot : ¬ (Int.fdiv (serverTime - localTime) 1000).natAbs < 5 := not_lt.mpr h
    simp [binanceTimeOffset, hnot]
  · by_cases h : (Int.fdiv (serverTime - localTime) 1000).natAbs < 5
    · exact Or.inl (by simp [binanceTimeOffset, h])
    · refine Or.inr ?_
      have heq : binanceTimeOffset serverTime localTime =
          Int.fdiv (serverTime - localTime) 1000 := by
        simp [binanceTimeOffset, h]
      rw [heq]
      have hdm := Int.fdiv_add_fmod (serverTime - localTime) 1000
      have hnn : 0 ≤ (serverTime - localTime).fmod 1000 :=
        Int.fmod_nonneg' _ (by norm_num)
      have hlt : (serverTime - localTime).fmod 1000 < 1000 :=
        Int.fmod_lt_of_pos _ (by norm_num)
      omega

/-- Witness for `C8_server_time_offset`: a 10-second skew is kept as a
10-second offset; a 4.999-second skew is zeroed. -/
theorem C8_server_time_offset_witness :
    (5 ≤ (Int.fdiv ((1010000 : Int) - 1000000) 1000).natAbs ∧
      binanceTimeOffset 1010000 1000000 =
        Int.fdiv ((1010000 : Int) - 1000000) 1000) ∧
    ((Int.fdiv ((1004999 : Int) - 1000000) 1000).natAbs < 5 ∧
      binanceTimeOffset 1004999 1000000 = 0) :=
  ⟨⟨by decide, (C8_server_time_offset 1010000 1000000 0 0 0).2.1 (by decide)⟩,
   ⟨by decide, (C8_server_time_offset 1004999 1000000 0 0 0).1 (by decide)⟩⟩

/-! ## Claim C1 — daily loss limit -/

/-- Claim C1 counterexample: the daily-loss check of `can_place_order` reads
only the realized `daily_pnl`, not the realized-plus-unrealized total.  In a
state whose P&L total is −110 purely from an open position marked down by 110
(limit 100, realized P&L 0), admission still returns ok and nothing is
latched — the claim's general rule demands a deny and `blocked = true`. -/
theorem C1_counterexample :
    egUnrealized.max_daily_loss = 100 ∧
    egUnrealized.blocked = false ∧
    dailyPnlTotal egUnrealized = -110 ∧
    egUnrealized.max_daily_loss ≤ abs (dailyPnlTotal egUnrealized) ∧
    (can_place_order egUnrealized.current_date "Y" "buy" 1 50 egUnrealized).1 = true ∧
    (can_place_order egUnrealized.current_date "Y" "buy" 1 50 egUnrealized).2.2.blocked
      = false := by
  norm_num +decide [dailyPnlTotal, egUnrealized, egBase, record_trade,
    update_position_price, posLookup, posUpdate, can_place_order,
    can_place_order_checks, resetDailyCounters]

/-- Claim C1 (amended): the limit is compared against the **realized** daily
P&L only (unrealized P&L of open positions is not consulted).  Whenever
`max_daily_loss > 0` and `|daily_pnl| ≥ max_daily_loss` in an unblocked
same-date state, the next admission call denies with the daily-loss reason and
latches `blocked = true`, and every subsequent admission on that date is
denied as well. -/
theorem C1_daily_loss_latch :
    ∀ (s : RiskState) (today : Nat) (symbol side : String) (lots : Int)
      (price : Rat),
      today = s.current_date → s.blocked = false → 0 < s.max_daily_loss →
      s.max_daily_loss ≤ abs s.daily_pnl →
      (can_place_order today symbol side lots price s).1 = false ∧
      (can_place_order today symbol side lots price s).2.1 =
        dailyLossReason s.daily_pnl ∧
      (can_place_order today symbol side lots price s).2.2.blocked = true ∧
      ∀ (symbol' side' : String) (lots' : Int) (price' : Rat),
        (can_place_order today symbol' side' lots' price'
            (can_place_order today symbol side lots price s).2.2).1 = false := by
  intro s today symbol side lots price hdate hb h1 h2
  rw [can_place_order_same_date today symbol side lots price s hdate,
      can_place_order_checks_daily_loss symbol side lots price s hb h1 h2]
  refine ⟨rfl, rfl, rfl, ?_⟩
  intro symbol' side' lots' price'
  show (can_place_order today symbol' side' lots' price'
      { s with blocked := true,
               block_reason := some (dailyLossReason s.daily_pnl) }).1 = false
  rw [can_place_order_same_date today symbol' side' lots' price'
        { s with blocked := true,
                 block_reason := some (dailyLossReason s.daily_pnl) } hdate,
      can_place_order_checks_blocked _ _ _ _ _ rfl]

/-- Witness for `C1_daily_loss_latch`: the spec's own scenario — two exit
trades realizing −60 and −50 bring `daily_pnl` to −110 against the limit 100;
the next admission denies with the daily-loss reason and latches the block,
and an admission after that is denied too. -/
theorem C1_daily_loss_latch_witness :
    (0 = egRealized.current_date ∧ egRealized.blocked = false ∧
      0 < egRealized.max_daily_loss ∧
      egRealized.max_daily_loss ≤ abs egRealized.daily_pnl ∧
      egRealized.daily_pnl = -110) ∧
    (can_place_order 0 "Y" "buy" 1 50 egRealized).1 = false ∧
    (can_place_order 0 "Y" "buy" 1 50 egRealized).2.1 =
      dailyLossReason egRealized.daily_pnl ∧
    (can_place_order 0 "Y" "buy" 1 50 egRealized).2.2.blocked = true ∧
    (can_place_order 0 "Z" "sell" 2 70
        (can_place_order 0 "Y" "buy" 1 50 egRealized).2.2).1 = false := by
  have hdate : (0 : Nat) = egRealized.current_date := by
    norm_num +decide [egRealized, egBase, record_trade, posLookup]
  have hb : egRealized.blocked = false := by
    norm_num +decide [egRealized, egBase, record_trade, posLookup]
  have h1 : 0 < egRealized.max_daily_loss := by
    norm_num +decide [egRealized, egBase, record_trade, posLookup]
  have hpnl : egRealized.daily_pnl = -110 := by
    norm_num +decide [egRealized, egBase, record_trade, posLookup]
  have h2 : egRealized.max_daily_loss ≤ abs egRealized.daily_pnl := by
    norm_num +decide [egRealized, egBase, record_trade, posLookup]
  have main := C1_daily_loss_latch egRealized 0 "Y" "buy" 1 50 hdate hb h1 h2
  exact ⟨⟨hdate, hb, h1, h2, hpnl⟩, main.1, main.2.1, main.2.2.1,
         main.2.2.2 "Z" "sell" 2 70⟩

/-! ## Claim C2 — the block latch -/

/-- Claim C2: while `blocked = true` and the calendar date is unchanged,
every admission denies and leaves the latch set; `record_trade` and
`update_position_price` never change the latch; only the manual reset
(`reset_block`) and the daily rollover (`_reset_daily_counters`, triggered by
a date change) clear it. -/
theorem C2_blocked_denies_until_reset :
    ∀ (s : RiskState) (today : Nat) (symbol side : String) (lots : Int)
      (price current_price pnl : Rat),
      (s.blocked = true → today = s.current_date →
        (can_place_order today symbol side lots price s).1 = false ∧
        (can_place_order today symbol side lots price s).2.2.blocked = true) ∧
      (record_trade symbol side lots price pnl s).blocked = s.blocked ∧
      (update_position_price symbol current_price s).blocked = s.blocked ∧
      (reset_block s).blocked = false ∧
      (resetDailyCounters today s).blocked = false := by
  intro s today symbol side lots price current_price pnl
  refine ⟨?_, (record_trade_frame symbol side lots price pnl s).1,
          update_position_price_blocked symbol current_price s, rfl, rfl⟩
  intro hb hdate
  rw [can_place_order_same_date today symbol side lots price s hdate,
      can_place_order_checks_blocked symbol side lots price s hb]
  exact ⟨rfl, hb⟩

/-- Witness for `C2_blocked_denies_until_reset`, on the latched state the
daily-loss scenario produces: admission is denied and stays latched, the
recording and marking operations preserve the latch, the manual reset and the
rollover clear it. -/
theorem C2_blocked_denies_until_reset_witness :
    (egBlocked.blocked = true ∧ 0 = egBlocked.current_date) ∧
    (can_place_order 0 "A" "buy" 1 10 egBlocked).1 = false ∧
    (can_place_order 0 "A" "buy" 1 10 egBlocked).2.2.blocked = true ∧
    (record_trade "A" "buy" 1 10 0 egBlocked).blocked = egBlocked.blocked ∧
    (update_position_price "A" 10 egBlocked).blocked = egBlocked.blocked ∧
    (reset_block egBlocked).blocked = false ∧
    (resetDailyCounters 0 egBlocked).blocked = false := by
  have hb : egBlocked.blocked = true := by
    norm_num +decide [egBlocked, egRealized, egBase, record_trade, posLookup,
      can_place_order, can_place_order_checks, resetDailyCounters]
  have hdate : (0 : Nat) = egBlocked.current_date := by
    norm_num +decide [egBlocked, egRealized, egBase, record_trade, posLookup,
      can_place_order, can_place_order_checks, resetDailyCounters]
  have main := C2_blocked_denies_until_reset egBlocked 0 "A" "buy" 1 10 10 0
  exact ⟨⟨hb, hdate⟩, (main.1 hb hdate).1, (main.1 hb hdate).2, main.2.1,
         main.2.2.1, main.2.2.2.1, main.2.2.2.2⟩

/-! ## Claim C10 — admission is read-only on accounting state -/

/-- Claim C10: on an unchanged calendar date, `can_place_order` never touches
the P&L, the open positions, the trade log, the date or any configured limit
— the block latch and its reason are the only fields it may set. -/
theorem C10_admit_frame :
    ∀ (s : RiskState) (today : Nat) (symbol side : String) (lots : Int)
      (price : Rat),
      today = s.current_date →
      (can_place_order today symbol side lots price s).2.2.daily_pnl = s.daily_pnl ∧
      (can_place_order today symbol side lots price s).2.2.open_positions =
        s.open_positions ∧
      (can_place_order today symbol side lots price s).2.2.daily_trades =
        s.daily_trades ∧
      (can_place_order today symbol side lots price s).2.2.current_date =
        s.current_date ∧
      (can_place_order today symbol side lots price s).2.2.max_daily_loss =
        s.max_daily_loss ∧
      (can_place_order today symbol side lots price s).2.2.max_daily_loss_percent =
        s.max_daily_loss_percent ∧
      (can_place_order today symbol side lots price s).2.2.max_position_size =
        s.max_position_size ∧
      (can_place_order today symbol side lots price s).2.2.max_open_positions =
        s.max_open_positions ∧
      (can_place_order today symbol side lots price s).2.2.starting_capital =
        s.starting_capital := by
  intro s today symbol side lots price hdate
  rw [can_place_order_same_date today symbol side lots price s hdate]
  rcases can_place_order_checks_state symbol side lots price s with h | ⟨r, h⟩ <;>
    rw [h] <;>
      exact ⟨rfl, rfl, rfl, rfl, rfl, rfl, rfl, rfl, rfl⟩

/-- Witness for `C10_admit_frame`: a same-date admission on the fresh example
state changes none of the accounting fields. -/
theorem C10_admit_frame_witness :
    (0 = egBase.current_date) ∧
    (can_place_order 0 "Y" "buy" 1 50 egBase).2.2.daily_pnl = egBase.daily_pnl ∧
    (can_place_order 0 "Y" "buy" 1 50 egBase).2.2.open_positions =
      egBase.open_positions ∧
    (can_place_order 0 "Y" "buy" 1 50 egBase).2.2.daily_trades =
      egBase.daily_trades := by
  have main := C10_admit_frame egBase 0 "Y" "buy" 1 50 rfl
  exact ⟨rfl, main.1, main.2.1, main.2.2.1⟩

/-! ## Claim C4 — candle save idempotence -/

/-- Claim C4 counterexample: saving the same-time candle twice is an upsert
in the SQLite back-end (one row, last write wins), but the redis
recent-candle cache appends on every save, so after the two saves the cache
— as read back by `get_candles` — holds **two** entries for that `time`. -/
theorem C4_counterexample :
    db_save_candle_sqlite (db_save_candle_sqlite [] egCandleOld) egCandle =
      [egCandle] ∧
    cache_candles (cache_candles [] [egCandleOld] 1000) [egCandle] 1000 =
      [egCandleOld, egCandle] ∧
    ((cache_candles (cache_candles [] [egCandleOld] 1000) [egCandle] 1000).filter
        (fun x => x.time = egCandle.time)).length = 2 ∧
    get_candles (cache_candles (cache_candles [] [egCandleOld] 1000) [egCandle] 1000)
        100 = [egCandleOld, egCandle] := by
  refine ⟨by decide, by decide, by decide, by decide⟩

/-- Claim C4 (amended): in the authoritative SQLite back-end the `time`
primary key plus `session.merge` give upsert semantics — after any save into
a unique-times table the rows carrying the saved candle's `time` are exactly
the last write, and `time`-uniqueness is preserved; the redis recent-candle
cache, by contrast, appends the saved candles (rpush + ltrim of the tail), so
repeated saves of one candle leave duplicate cache entries. -/
theorem C4_db_upsert_cache_append :
    ∀ (db : List OHLC) (c : OHLC) (cache cs : List OHLC),
      (uniqueTimes db →
        (db_save_candle_sqlite db c).filter (fun x => x.time = c.time) = [c] ∧
        uniqueTimes (db_save_candle_sqlite db c)) ∧
      (cache.length + cs.length ≤ 1000 →
        cache_candles cache cs 1000 = cache ++ cs ∧
        get_candles (cache_candles cache cs 1000) (cache.length + cs.length) =
          cache ++ cs) := by
  intro db c cache cs
  constructor
  · intro hdb
    exact ⟨db_save_filter c db hdb, db_save_uniqueTimes c db hdb⟩
  · intro hlen
    have happ : cache_candles cache cs 1000 = cache ++ cs := by
      show List.drop ((cache ++ cs).length - 1000) (cache ++ cs) = cache ++ cs
      rw [List.length_append, Nat.sub_eq_zero_of_le hlen, List.drop_zero]
    refine ⟨happ, ?_⟩
    rw [happ]
    unfold get_candles
    rw [List.length_append, Nat.sub_self, List.drop_zero]

/-- Witness for `C4_db_upsert_cache_append`: re-saving the upsert scenario's
candle into the one-row table replaces the row; appending it to the one-entry
cache duplicates its `time` there. -/
theorem C4_db_upsert_cache_append_witness :
    (uniqueTimes [egCandleOld] ∧
      ([egCandleOld] : List OHLC).length + ([egCandle] : List OHLC).length ≤ 1000) ∧
    (db_save_candle_sqlite [egCandleOld] egCandle).filter
        (fun x => x.time = egCandle.time) = [egCandle] ∧
    uniqueTimes (db_save_candle_sqlite [egCandleOld] egCandle) ∧
    cache_candles [egCandleOld] [egCandle] 1000 = [egCandleOld] ++ [egCandle] := by
  have h1 : uniqueTimes [egCandleOld] := by decide
  have h2 : ([egCandleOld] : List OHLC).length + ([egCandle] : List OHLC).length ≤ 1000 := by
    decide
  have main := C4_db_upsert_cache_append [egCandleOld] egCandle [egCandleOld] [egCandle]
  exact ⟨⟨h1, h2⟩, (main.1 h1).1, (main.1 h1).2, (main.2 h2).1⟩

/-! ## Claim C5 — the open-position cap -/

/-- Claim C5 counterexample: `record_trade` itself enforces nothing — a buy
of a new symbol recorded against a state already at the cap
(`max_open_positions = 1`, one open position) yields two open positions. -/
theorem C5_counterexample :
    egAtCap.max_open_positions = 1 ∧
    egAtCap.open_positions.length = 1 ∧
    (record_trade "B" "buy" 1 100 0 egAtCap).open_positions.length = 2 := by
  norm_num +decide [record_trade, egAtCap, egBase, posLookup]

/-- Claim C5 (amended): the open-position cap is enforced only by
`can_place_order`, not by `record_trade`.  When a buy recorded in a same-date
state was approved by `can_place_order` on that state, a cap that held before
(`|open_positions| ≤ max_open_positions`, cap active) still holds after the
`record_trade`; a recorded sell never increases the position count. -/
theorem C5_cap_after_admitted_trade :
    ∀ (s : RiskState) (today : Nat) (symbol : String) (lots : Int)
      (price pnl : Rat),
      (today = s.current_date → 0 < s.max_open_positions →
        s.open_positions.length ≤ s.max_open_positions →
        (can_place_order today symbol "buy" lots price s).1 = true →
        (record_trade symbol "buy" lots price pnl s).open_positions.length ≤
          s.max_open_positions) ∧
      (record_trade symbol "sell" lots price pnl s).open_positions.length ≤
        s.open_positions.length := by
  intro s today symbol lots price pnl
  constructor
  · intro hdate hmax hlen hadmit
    rw [can_place_order_same_date today symbol "buy" lots price s hdate] at hadmit
    rw [record_trade_open_positions, if_pos rfl]
    cases hlk : posLookup symbol s.open_positions with
    | none =>
        have hlt := can_place_order_checks_cap symbol "buy" lots price s
          hadmit rfl hmax hlk
        simp only [List.length_append, List.length_cons, List.length_nil]
        omega
    | some pos =>
        simp only [posUpdate_length]
        exact hlen
  · rw [record_trade_open_positions, if_neg (by decide), if_pos rfl]
    cases hlk : posLookup symbol s.open_positions with
    | none => exact le_refl _
    | some pos =>
        dsimp only
        split_ifs
        · exact posErase_length_le symbol s.open_positions
        · exact (posUpdate_length s.open_positions).le

/-- Witness for `C5_cap_after_admitted_trade`: at the cap, a buy into the
**existing** position is admitted, and recording it keeps the count at the
cap; recording a sell does not increase the count. -/
theorem C5_cap_after_admitted_trade_witness :
    (0 = egAtCap.current_date ∧ 0 < egAtCap.max_open_positions ∧
      egAtCap.open_positions.length ≤ egAtCap.max_open_positions ∧
      (can_place_order 0 "A" "buy" 1 120 egAtCap).1 = true) ∧
    (record_trade "A" "buy" 1 120 0 egAtCap).open_positions.length ≤
      egAtCap.max_open_positions ∧
    (record_trade "A" "sell" 1 130 10 egAtCap).open_positions.length ≤
      egAtCap.open_positions.length := by
  have h1 : (0 : Nat) = egAtCap.current_date := by
    norm_num +decide [egAtCap, egBase]
  have h2 : 0 < egAtCap.max_open_positions := by
    norm_num +decide [egAtCap, egBase]
  have h3 : egAtCap.open_positions.length ≤ egAtCap.max_open_positions := by
    norm_num +decide [egAtCap, egBase]
  have hadmit : (can_place_order 0 "A" "buy" 1 120 egAtCap).1 = true := by
    norm_num +decide [can_place_order, can_place_order_checks, egAtCap, egBase,
      posLookup, resetDailyCounters]
  exact ⟨⟨h1, h2, h3, hadmit⟩,
         (C5_cap_after_admitted_trade egAtCap 0 "A" 1 120 0).1 h1 h2 h3 hadmit,
         (C5_cap_after_admitted_trade egAtCap 0 "A" 1 130 10).2⟩

/-! ## Claim C9 — positions stay strictly long -/

/-- One `record_trade` step preserves strict positivity of all open-position
lots, for a trade of positive lots: a buy adds positive lots to a new or
existing entry, and a sell either leaves lots positive or deletes the entry
when they would fall to 0 or below. -/
lemma record_trade_positions_positive (symbol side : String) (lots : Int)
    (price pnl : Rat) (s : RiskState) (hl : 0 < lots)
    (hs : positionsPositive s) :
    positionsPositive (record_trade symbol side lots price pnl s) := by
  intro kv hkv
  rw [record_trade_open_positions] at hkv
  by_cases hbuy : side = "buy"
  · rw [if_pos hbuy] at hkv
    cases hlk : posLookup symbol s.open_positions with
    | none =>
        rw [hlk] at hkv
        rcases List.mem_append.mp hkv with h | h
        · exact hs kv h
        · rcases List.mem_singleton.mp h with rfl
          exact hl
    | some pos =>
        rw [hlk] at hkv
        rcases posUpdate_mem hkv with h | h
        · have hpos : 0 < pos.lots := hs (symbol, pos) (posLookup_mem hlk)
          rw [h]
          simp only
          omega
        · exact hs kv h
  · rw [if_neg hbuy] at hkv
    by_cases hsell : side = "sell"
    · rw [if_pos hsell] at hkv
      cases hlk : posLookup symbol s.open_positions with
      | none => rw [hlk] at hkv; exact hs kv hkv
      | some pos =>
          rw [hlk] at hkv
          dsimp only at hkv
          by_cases hz : pos.lots - lots ≤ 0
          · rw [if_pos hz] at hkv
            exact hs kv (posErase_mem hkv)
          · rw [if_neg hz] at hkv
            rcases posUpdate_mem hkv with h | h
            · rw [h]
              simp only
              omega
            · exact hs kv h
    · rw [if_neg hsell] at hkv; exact hs kv hkv

/-- Claim C9: in every state reached by replaying `record_trade` over trades
with positive lot counts, starting from a state whose open positions all have
positive lots, every open position still has strictly positive lots — the
sell path deletes an entry rather than leaving it at zero or negative lots,
so shorts are never represented in `open_positions`. -/
theorem C9_positions_positive :
    ∀ (s : RiskState) (ts : List Trade),
      positionsPositive s → (∀ t ∈ ts, 0 < t.lots) →
      positionsPositive (runTrades s ts) := by
  intro s ts
  induction ts generalizing s with
  | nil => intro hs _; exact hs
  | cons t rest ih =>
      intro hs hts
      exact ih (record_trade t.symbol t.side t.lots t.price t.pnl s)
        (record_trade_positions_positive t.symbol t.side t.lots t.price t.pnl s
          (hts t (List.mem_cons_self t rest)) hs)
        (fun t' ht' => hts t' (List.mem_cons_of_mem t ht'))

/-- Witness for `C9_positions_positive`: from the fresh state, a 2-lot buy
followed by a 3-lot sell (which deletes the position through the ≤ 0 path)
leaves every remaining position — there are none — strictly long. -/
theorem C9_positions_positive_witness :
    (positionsPositive egBase ∧ ∀ t ∈ egTrades, 0 < t.lots) ∧
    positionsPositive (runTrades egBase egTrades) := by
  have h1 : positionsPositive egBase := by decide
  have h2 : ∀ t ∈ egTrades, 0 < t.lots := by decide
  exact ⟨⟨h1, h2⟩, C9_positions_positive egBase egTrades h1 h2⟩

end Wolfinch
